import Mathlib

/-!
Verification of the ArticleHub PDF layout engine
(`src/backend/services/pdfService.js`) against its specification.

The engine is a single JavaScript class built on a PDF toolkit.  The service
code itself is embedded faithfully below; the drawing toolkit is, per the
specification's system overview, an external collaborator and is modelled as
an abstract drawing device:

* a document is a growing list of drawing commands plus a layout cursor
  (x, y) and the current font / size / colour state;
* `textAt` stamps text at explicitly given coordinates and records the
  current font state, with the toolkit's cursor writeback: the pen moves to
  the given x and the vertical cursor advances below the drawn text by the
  rendered height, an abstract device metric (`textH`);
* flowing text (`textFlow`, no explicit coordinates) advances the vertical
  cursor by an abstract per-call line unit supplied by the environment;
* where page breaks fall inside flowed content depends on the device's font
  metrics, so the division of the drawn command stream into committed pages
  is an abstract device function (`paginate`); what the engine observes of
  the committed pages — `bufferedPageRange()` and `switchToPage(i)` on a
  document created WITHOUT the `bufferPages` option, so that only the last
  committed page remains buffered — is modelled exactly in `addFooter`;
* measurement (`widthOfString`) and locale date formatting are abstract
  functions supplied by the environment.

Geometry is exact rational arithmetic (the toolkit's A4 constants 595.28 and
841.89 are rationals here).
-/

/-! ## JavaScript string primitives -/

/-- The whitespace class of JavaScript's `\s` and `String.prototype.trim`
(ASCII whitespace plus the Unicode space separators). -/
def isJsSpace (c : Char) : Bool :=
  ([' ', '\t', '\n', '\x0b', '\x0c', '\r', ' ', ' ',
        ' ', ' ', ' ', ' ', ' ', ' ',
        ' ', ' ', ' ', ' ', ' ', ' ',
        ' ', ' ', ' ', '　', '﻿'] : List Char).contains c

/-- JavaScript `String.prototype.trim`: strip leading and trailing
whitespace. -/
def jsTrim (s : String) : String :=
  ⟨((s.data.dropWhile isJsSpace).reverse.dropWhile isJsSpace).reverse⟩

/-- JavaScript `String.prototype.startsWith`, on the character list for proof
transparency. -/
def sw (p s : String) : Bool :=
  p.data.isPrefixOf s.data

/-- JavaScript `text.split('**')` on the character list: at each position a
literal `**` ends the current part and is skipped, any other character is
appended to the current part. -/
def splitStars : List Char → List (List Char)
  | [] => [[]]
  | '*' :: '*' :: rest => [] :: splitStars rest
  | c :: rest =>
    match splitStars rest with
    | [] => [[c]]
    | g :: gs => (c :: g) :: gs

/-- JavaScript `text.split('**')`. -/
def splitBold (s : String) : List String :=
  (splitStars s.data).map fun l => ⟨l⟩

/-- JavaScript `content.split('\n')` on the character list. -/
def splitNl : List Char → List (List Char)
  | [] => [[]]
  | '\n' :: rest => [] :: splitNl rest
  | c :: rest =>
    match splitNl rest with
    | [] => [[c]]
    | g :: gs => (c :: g) :: gs

/-- JavaScript `content.split('\n')`. -/
def jsLines (content : String) : List String :=
  (splitNl content.data).map fun l => ⟨l⟩

/-- JavaScript `line.includes('**')`: the line contains the two-character bold
delimiter (equivalently, splitting on it yields at least two parts). -/
def hasBold (s : String) : Bool :=
  2 ≤ (splitBold s).length

/-- Tail of the numbered-list recogniser: after the leading digit, consume
further digits, then require a literal `.` followed by a whitespace
character. -/
def numTail : List Char → Bool
  | [] => false
  | c :: rest =>
    if c.isDigit then numTail rest
    else if c = '.' then
      match rest with
      | [] => false
      | w :: _ => isJsSpace w
    else false

/-- The regular expression `^\d+\.\s` of the numbered-list rule: one or more
digits, a period, then a whitespace character, anchored at the start.  Since
a digit can never also be the period, the greedy `\d+` is equivalent to this
deterministic maximal munch. -/
def matchesNumbered (s : String) : Bool :=
  match s.data with
  | [] => false
  | c :: rest => c.isDigit && numTail rest

/-! ## Filename derivation (`generateFilename`) -/

/-- The character class `[a-z0-9]` with the `i` flag: ASCII letters and
digits. -/
def isAsciiAlnum (c : Char) : Bool :=
  (('a' ≤ c) && (c ≤ 'z')) || (('A' ≤ c) && (c ≤ 'Z')) || (('0' ≤ c) && (c ≤ '9'))

/-- `title.replace(/[^a-z0-9]/gi, '_')`: every character outside
`[a-zA-Z0-9]` becomes an underscore. -/
def sanitizeChars (l : List Char) : List Char :=
  l.map fun c => if isAsciiAlnum c then c else '_'

/-- Worker for `replace(/_{2,}/g, '_')`.  The flag records whether we are
inside a run of underscores: the first underscore of a run is kept, the rest
of the run is dropped, so every maximal run of two or more underscores
collapses to a single one, exactly as the global regex replacement does. -/
def collapseGo : Bool → List Char → List Char
  | _, [] => []
  | inRun, c :: rest =>
    if c = '_' then (if inRun then [] else ['_']) ++ collapseGo true rest
    else c :: collapseGo false rest

/-- `replace(/_{2,}/g, '_')`: collapse runs of two or more underscores. -/
def collapseUnderscores (l : List Char) : List Char :=
  collapseGo false l

/-- Two consecutive underscores occur somewhere in the character list. -/
def hasDD : List Char → Bool
  | c1 :: c2 :: rest => (c1 = '_' && c2 = '_') || hasDD (c2 :: rest)
  | _ => false

/-! ## Data model -/

/-- The article record handed to the engine (the `ArticleRenderRequest`).
The populated `createdBy` author object is flattened to its `name` and
`email` fields; absent optional fields are `none`. -/
structure Article where
  title : String
  createdByName : Option String
  createdByEmail : Option String
  createdAt : String
  updatedAt : String
  viewCount : Option Nat
  tags : List String
  summary : Option String
  content : String
deriving Repr, DecidableEq

/-- JavaScript truthiness of an optional string (`if (article.summary)`,
`x || dflt`): absent and empty strings are falsy. -/
def jsTruthyStr : Option String → Bool
  | none => false
  | some s => s ≠ ""

/-- JavaScript `o || dflt` on an optional string: the default is substituted
when the value is absent or empty. -/
def orElseStr (o : Option String) (dflt : String) : String :=
  match o with
  | some s => if s = "" then dflt else s
  | none => dflt

/-- `article.viewCount?.toString() || '0'`: a present count prints itself
(the string form of a number is never empty), an absent one prints `0`. -/
def viewsStr : Option Nat → String
  | some n => toString n
  | none => "0"

/-! ## The abstract drawing device -/

/-- Text alignment option of a text command. -/
inductive TextAlign where
  | left
  | right
  | justify
  | default
deriving Repr, DecidableEq

/-- The option bag of a text command (the subset the service uses). -/
structure TextOpts where
  align : TextAlign := TextAlign.default
  width : Option ℚ := none
  indent : ℚ := 0
  lineGap : ℚ := 0
  continued : Bool := false
deriving Repr, DecidableEq

/-- A recorded drawing command. -/
inductive Cmd where
  | text (s : String) (x y : ℚ) (font : String) (size : ℚ) (fill : String)
      (opts : TextOpts)
  | rect (x y w h : ℚ) (fill stroke : String)
  | fillRect (x y w h : ℚ) (fill : String)
  | line (x1 y1 x2 y2 : ℚ) (stroke : String) (width : ℚ)
deriving Repr, DecidableEq

/-- The device document: the drawn command stream, the layout cursor, and
the current font / colour state.  The device divides the stream into
committed pages (`Env.paginate`) once the forward pass has finished. -/
structure Doc where
  cur : List Cmd := []
  x : ℚ := 50
  y : ℚ := 50
  font : String := "Helvetica"
  size : ℚ := 12
  fill : String := "black"
  strokeC : String := "black"
  lineW : ℚ := 1

/-- The render environment: the abstract device services plus the injected
failure points of the error model. -/
structure Env where
  /-- `doc.widthOfString` under the current device state. -/
  widthOf : String → ℚ
  /-- vertical advance of one flowed text call or one `moveDown(1)`. -/
  lineUnit : ℚ
  /-- rendered height of one explicit text stamp: the toolkit advances the
  vertical cursor below the drawn text by this amount (a device metric,
  positive in reality, depending on font size and wrapping). -/
  textH : String → ℚ
  /-- the device's division of the forward pass's drawn command stream into
  the committed pages: where page breaks fall inside flowed content depends
  on the device's font metrics, which this model abstracts.  What the
  engine observes of the committed pages — `bufferedPageRange` and
  `switchToPage` on a document created without the `bufferPages` option —
  is modelled exactly in `addFooter`. -/
  paginate : List Cmd → List (List Cmd)
  /-- `toLocaleDateString('en-US', {...})` long localized timestamp text. -/
  fmtDate : String → String
  /-- `new Date().toLocaleDateString()` used in the footer. -/
  nowStr : String
  /-- `some e` models a drawing primitive throwing during the synchronous
  layout phase (caught by the executor's `try`/`catch`). -/
  drawError : Option String
  /-- `some e` models `fs.writeFileSync` throwing inside the `'end'`
  handler. -/
  writeError : Option String

def Doc.setFont (d : Doc) (f : String) : Doc := { d with font := f }

def Doc.setSize (d : Doc) (q : ℚ) : Doc := { d with size := q }

def Doc.setFill (d : Doc) (c : String) : Doc := { d with fill := c }

def Doc.setStroke (d : Doc) (c : String) : Doc := { d with strokeC := c }

def Doc.setLineW (d : Doc) (q : ℚ) : Doc := { d with lineW := q }

/-- Record a drawing command on the drawn stream. -/
def Doc.record (d : Doc) (c : Cmd) : Doc := { d with cur := d.cur ++ [c] }

/-- `doc.moveDown(n)`: advance the vertical cursor by `n` line units. -/
def Doc.moveDown (d : Doc) (env : Env) (n : ℚ) : Doc :=
  { d with y := d.y + n * env.lineUnit }

/-- `doc.text(s, x, y, opts)`: stamp text at explicit coordinates with the
current font state, with the toolkit's cursor writeback: the pen moves to
the given `x` and the vertical cursor advances below the drawn text, to
`y + textH s` (the rendered height is a device metric). -/
def Doc.textAt (d : Doc) (env : Env) (s : String) (x y : ℚ) (opts : TextOpts) : Doc :=
  { d with cur := d.cur ++ [Cmd.text s x y d.font d.size d.fill opts],
           x := x, y := y + env.textH s }

/-- `doc.text(s, opts)`: flowing text at the cursor.  A continued fragment
stays on the current visual line; a terminating fragment ends the line and
advances the vertical cursor by one abstract line unit. -/
def Doc.textFlow (d : Doc) (env : Env) (s : String) (opts : TextOpts) : Doc :=
  let d := { d with cur := d.cur ++ [Cmd.text s d.x d.y d.font d.size d.fill opts] }
  if opts.continued then d else { d with y := d.y + env.lineUnit }

/-- The finished buffer handed to the caller: the serialized bytes together
with the page count the document declares in its page tree. -/
structure PdfBuffer where
  bytes : String
  pageCount : Nat
deriving Repr, DecidableEq

/-- What the caller of `generateArticlePDF` can observe of the returned
promise: it resolves, it rejects, or — when an exception escapes outside the
executor — it never settles and the error surfaces as an uncaught
exception. -/
inductive RenderOutcome where
  | resolved (buffer : PdfBuffer) (filePath : Option String)
  | rejected (err : String)
  | uncaught (err : String)
deriving Repr, DecidableEq

/-- The promise settled (resolved or rejected); an uncaught exception outside
the executor settles nothing. -/
def RenderOutcome.settles : RenderOutcome → Bool
  | .uncaught _ => false
  | _ => true

/-! ## Observers on recorded commands -/

/-- The text contents of the text commands of a command list, in order. -/
def textsOf (cmds : List Cmd) : List String :=
  cmds.filterMap fun c =>
    match c with
    | Cmd.text s _ _ _ _ _ _ => some s
    | _ => none

/-- The `(x, y, width)` triples of the stroked rectangles of a command list,
in order. -/
def rectsOf (cmds : List Cmd) : List (ℚ × ℚ × ℚ) :=
  cmds.filterMap fun c =>
    match c with
    | Cmd.rect x y w _ _ _ => some (x, y, w)
    | _ => none

/-- The y-coordinates of the text commands of the drawn stream, in order. -/
def textYs (d : Doc) : List ℚ :=
  d.cur.filterMap fun c =>
    match c with
    | Cmd.text _ _ y _ _ _ _ => some y
    | _ => none

/-- Apply `f` to the element at position `n`, if any. -/
def modifyIdx (f : List Cmd → List Cmd) : Nat → List (List Cmd) → List (List Cmd)
  | _, [] => []
  | 0, p :: ps => f p :: ps
  | n + 1, p :: ps => p :: modifyIdx f n ps

/-! ## The layout engine (`pdfService.js`) -/

/-- `this.defaultMargin = 50`. -/
def defaultMargin : ℚ := 50

/-- `this.pageWidth = 595.28` (A4 width). -/
def pageWidth : ℚ := 595.28

/-- `this.pageHeight = 841.89` (A4 height). -/
def pageHeight : ℚ := 841.89

/-- `addHeader(doc, article)`: the title in 24pt bold, then the accent rule
across the content width. -/
def addHeader (env : Env) (a : Article) (d : Doc) : Doc :=
  let d := ((d.setSize 24).setFont "Helvetica-Bold").setFill "#1f2937"
  let d := d.textFlow env a.title { align := TextAlign.left, width := some 500 }
  let d := d.moveDown env 0.5
  let d := (d.setStroke "#3b82f6").setLineW 2
  let d := d.record (Cmd.line defaultMargin d.y (pageWidth - defaultMargin) d.y d.strokeC d.lineW)
  d.moveDown env 1

/-- The `metadata` label/value array of `addMetadata`. -/
def metadataRows (env : Env) (a : Article) : List (String × String) :=
  [("Author", orElseStr a.createdByName "Unknown Author"),
   ("Email", orElseStr a.createdByEmail "N/A"),
   ("Created", env.fmtDate a.createdAt),
   ("Last Updated", env.fmtDate a.updatedAt),
   ("Views", viewsStr a.viewCount)]

/-- The `metadata.forEach((item, index) => ...)` loop of `addMetadata`: row
`index` stamps its bold label at `(margin + 20, doc.y + index * 18)` and its
value 85 points to the right at the same height. -/
def metadataLoop (env : Env) (rows : List (String × String)) (d : Doc) : Doc :=
  rows.enum.foldl
    (fun d iitem =>
      let x := defaultMargin + 20
      let y := d.y + (iitem.1 : ℚ) * 18
      let d := (d.setFont "Helvetica-Bold").textAt env (iitem.2.1 ++ ":") x y { width := some 80 }
      (d.setFont "Helvetica").textAt env iitem.2.2 (x + 85) y { width := some 350 })
    d

/-- The `article.tags.forEach(...)` chip loop of `addMetadata`, threading the
pen position `doc.x` (in the document) and the line anchor `tagY` (second
component of the result).  Each chip is 16 points wider than its measured
text; a chip whose right edge would pass `pageWidth - margin` wraps the pen
to `margin + 70` and moves the line anchor down 20 points. -/
def tagsLoop (env : Env) : List String → Doc → ℚ → Doc × ℚ
  | [], d, tagY => (d, tagY)
  | tag :: rest, d, tagY =>
    let tagText := "#" ++ tag
    let tagWidth := env.widthOf tagText + 16
    let dt := if d.x + tagWidth > pageWidth - defaultMargin
              then ({ d with x := defaultMargin + 70 }, tagY + 20)
              else (d, tagY)
    let d := dt.1
    let tagY := dt.2
    let d := d.record (Cmd.rect d.x (tagY - 2) tagWidth 16 "#dbeafe" "#3b82f6")
    let d := ((d.setFill "#1e40af").setFont "Helvetica").setSize 9
    let d := d.textAt env tagText (d.x + 8) (tagY + 2) {}
    let d := { d with x := d.x + tagWidth + 8 }
    tagsLoop env rest d tagY

/-- The tags block of `addMetadata`: the bold `Tags:` label, the chip loop,
then `doc.y = tagY + 20`. -/
def tagsBlock (env : Env) (tags : List String) (d : Doc) : Doc :=
  let d := (d.setFont "Helvetica-Bold").textAt env "Tags:" (defaultMargin + 20) d.y {}
  let r := tagsLoop env tags d d.y
  { r.1 with y := r.2 + 20 }

/-- `addMetadata(doc, article)`: the shaded 120-point box, the five fixed
label/value rows, `doc.y += metadata.length * 18 + 10`, and the tag chips
when tags are present. -/
def addMetadata (env : Env) (a : Article) (d : Doc) : Doc :=
  let d := d.record (Cmd.rect defaultMargin d.y (pageWidth - 2 * defaultMargin) 120 "#f8fafc" "#e2e8f0")
  let d := d.moveDown env 0.5
  let d := ((d.setSize 10).setFont "Helvetica").setFill "#4b5563"
  let rows := metadataRows env a
  let d := metadataLoop env rows d
  let d := { d with y := d.y + (rows.length : ℚ) * 18 + 10 }
  let d := if 0 < a.tags.length then tagsBlock env a.tags d else d
  d.moveDown env 1

/-- The bullet glyph of the list branch: the source file literally contains
the three characters U+00E2, U+20AC, U+00A2 (a mis-encoded bullet) followed
by a space. -/
def bulletPrefix : String := "â€¢ "

/-- The `### ` branch: 12pt bold sub-heading from `line.substring(4)`. -/
def h3Act (env : Env) (d : Doc) (l : String) : Doc :=
  let d := (((d.setSize 12).setFont "Helvetica-Bold").setFill "#374151").textFlow env (l.drop 4) { lineGap := 6 }
  d.moveDown env 0.3

/-- The `## ` branch: 14pt bold heading from `line.substring(3)`. -/
def h2Act (env : Env) (d : Doc) (l : String) : Doc :=
  let d := (((d.setSize 14).setFont "Helvetica-Bold").setFill "#1f2937").textFlow env (l.drop 3) { lineGap := 6 }
  d.moveDown env 0.4

/-- The `# ` branch: 16pt bold top-level heading from `line.substring(2)`. -/
def h1Act (env : Env) (d : Doc) (l : String) : Doc :=
  let d := (((d.setSize 16).setFont "Helvetica-Bold").setFill "#1f2937").textFlow env (l.drop 2) { lineGap := 8 }
  d.moveDown env 0.5

/-- The `- ` / `* ` branch: indented justified bullet item, the glyph plus
`line.substring(2)`. -/
def bulletAct (env : Env) (d : Doc) (l : String) : Doc :=
  (((d.setSize 10).setFont "Helvetica").setFill "#4b5563").textFlow env
    (bulletPrefix ++ l.drop 2) { align := TextAlign.justify, indent := 20, lineGap := 3 }

/-- The numbered-list branch: the line verbatim, indented and justified (the
original numbering text is preserved). -/
def numberedAct (env : Env) (d : Doc) (l : String) : Doc :=
  (((d.setSize 10).setFont "Helvetica").setFill "#4b5563").textFlow env
    l { align := TextAlign.justify, indent := 20, lineGap := 3 }

/-- The `> ` branch: indented italic muted blockquote from
`line.substring(2)`. -/
def quoteAct (env : Env) (d : Doc) (l : String) : Doc :=
  (((d.setSize 10).setFont "Helvetica-Oblique").setFill "#6b7280").textFlow env
    (l.drop 2) { align := TextAlign.justify, indent := 30, lineGap := 3 }

/-- The plain-paragraph branch: justified 10pt paragraph, then a small move
down. -/
def paragraphAct (env : Env) (d : Doc) (l : String) : Doc :=
  let d := (((d.setSize 10).setFont "Helvetica").setFill "#374151").textFlow env
    l { align := TextAlign.justify, lineGap := 4 }
  d.moveDown env 0.2

/-- The `for (let i = 0; i < parts.length; i++)` loop of `processBoldText`:
even indices set the regular face (and the size and colour), odd indices set
the bold face; every fragment except the last is continued.  `n` is
`parts.length`. -/
def boldLoop (env : Env) (n : Nat) : List String → Nat → Doc → Doc
  | [], _, d => d
  | p :: rest, i, d =>
    let d :=
      if i % 2 = 0 then
        (((d.setFont "Helvetica").setSize 10).setFill "#374151").textFlow env p
          { continued := decide (i < n - 1) }
      else
        (d.setFont "Helvetica-Bold").textFlow env p { continued := decide (i < n - 1) }
    boldLoop env n rest (i + 1) d

/-- `processBoldText(doc, text)`: split on the two-character bold delimiter,
render the fragments by index parity, then a small move down. -/
def processBoldTextD (env : Env) (d : Doc) (text : String) : Doc :=
  let parts := splitBold text
  let d := boldLoop env parts.length parts 0 d
  d.moveDown env 0.2

/-- One iteration of the `lines.forEach(...)` body of
`processMarkdownContent`: trim the line, then the fixed if/else-if chain —
empty, `### `, `## `, `# `, bullet, numbered, blockquote, bold, paragraph —
in source order. -/
def renderLine (env : Env) (d : Doc) (line : String) : Doc :=
  let l := jsTrim line
  if l == "" then d.moveDown env 0.3
  else if sw "### " l then h3Act env d l
  else if sw "## " l then h2Act env d l
  else if sw "# " l then h1Act env d l
  else if sw "- " l || sw "* " l then bulletAct env d l
  else if matchesNumbered l then numberedAct env d l
  else if sw "> " l then quoteAct env d l
  else if hasBold l then processBoldTextD env d l
  else paragraphAct env d l

/-- `processMarkdownContent(doc, content)`: split the body on newline
characters and process each line independently. -/
def processMarkdownContent (env : Env) (content : String) (d : Doc) : Doc :=
  (jsLines content).foldl (fun d line => renderLine env d line) d

/-- `addContent(doc, article)`: the optional Summary section (present only
for a truthy summary), the Content section label, and the markdown body. -/
def addContent (env : Env) (a : Article) (d : Doc) : Doc :=
  let d :=
    if jsTruthyStr a.summary then
      let d := ((d.setSize 14).setFont "Helvetica-Bold").setFill "#1f2937"
      let d := d.textFlow env "Summary" { align := TextAlign.left }
      let d := d.moveDown env 0.3
      let d := d.record (Cmd.fillRect defaultMargin d.y (pageWidth - 2 * defaultMargin) 2 "#fbbf24")
      let d := d.moveDown env 0.5
      let d := ((d.setSize 11).setFont "Helvetica-Oblique").setFill "#374151"
      let d := d.textFlow env (a.summary.getD "") { align := TextAlign.justify, lineGap := 4 }
      d.moveDown env 1
    else d
  let d := ((d.setSize 14).setFont "Helvetica-Bold").setFill "#1f2937"
  let d := d.textFlow env "Content" { align := TextAlign.left }
  let d := d.moveDown env 0.3
  let d := d.record (Cmd.fillRect defaultMargin d.y (pageWidth - 2 * defaultMargin) 2 "#3b82f6")
  let d := d.moveDown env 0.8
  processMarkdownContent env a.content d

/-- The three footer commands stamped on page `i` (0-based): the horizontal
rule, the left-aligned generation line and the right-aligned
`Page i+1 of count` fragment, at fixed distances from the bottom edge. -/
def footerCmds (env : Env) (count : Nat) (i : Nat) : List Cmd :=
  [Cmd.line defaultMargin (pageHeight - 60) (pageWidth - defaultMargin) (pageHeight - 60) "#e5e7eb" 1,
   Cmd.text ("Generated by ArticleHub | " ++ env.nowStr) defaultMargin (pageHeight - 45)
     "Helvetica" 8 "#9ca3af" { align := TextAlign.left },
   Cmd.text ("Page " ++ toString (i + 1) ++ " of " ++ toString count) defaultMargin (pageHeight - 45)
     "Helvetica" 8 "#9ca3af" { align := TextAlign.right }]

/-- One iteration of the footer loop of `addFooter`:
`doc.switchToPage(i)` followed by the three footer draws.  Only the pages
of the buffered range `[start, start + count)` are still addressable;
`switchToPage` on any other index throws (`_pageBuffer[i - start]` is
undefined), which is modelled as the error result. -/
def stampPage (env : Env) (start count i : Nat) (ps : List (List Cmd)) :
    Except String (List (List Cmd)) :=
  if i < start ∨ start + count ≤ i then Except.error "switchToPage out of bounds"
  else Except.ok (modifyIdx (fun pg => pg ++ footerCmds env count i) i ps)

/-- `addFooter(doc, article)`: read `doc.bufferedPageRange()` once, then
loop `for (let i = 0; i < pages.count; i++)` stamping page `i`.

The source creates the document WITHOUT the `bufferPages: true` option
(`new PDFDocument({margin, size, info})`, pdfService.js:15-25), so every
page break flushes the finished page out of the buffer: at footer time only
the last committed page is still buffered, and `bufferedPageRange()` is
`{start: N - 1, count: 1}`.  The loop therefore runs once, with `i = 0`,
and `switchToPage(0)` succeeds only when page 0 is the buffered page, i.e.
when the document has a single page. -/
def addFooter (env : Env) (ps : List (List Cmd)) : Except String (List (List Cmd)) :=
  let start := ps.length - 1
  let count := 1
  (List.range count).foldlM (fun acc i => stampPage env start count i acc) ps

/-- The device's serialization of the committed pages into the finished byte
stream; a PDF stream always begins with the `%PDF` magic. -/
def serializePages (ps : List (List Cmd)) : String :=
  "%PDF" ++ String.join (ps.map fun pg => "\npage:" ++ toString pg.length)

/-- `generateFilename(article)`: sanitize the title to `[a-zA-Z0-9_]`,
collapse underscore runs, truncate to 50 characters, and wrap the result as
`article_<title>_<date>.pdf`.  The current date (`toISOString` day prefix)
is the function's only impurity and is passed explicitly, so the result is
deterministic in the title and the date. -/
def generateFilename (article : Article) (dateStr : String) : String :=
  let title : String := ⟨(collapseUnderscores (sanitizeChars article.title.data)).take 50⟩
  "article_" ++ title ++ "_" ++ dateStr ++ ".pdf"

/-- The forward layout pass of the executor body: header, metadata and
content drawn onto a fresh document. -/
def forwardPass (env : Env) (a : Article) : Doc :=
  addContent env a (addMetadata env a (addHeader env a {}))

/-- `generateArticlePDF(article, outputPath)`, with the article record
threaded through as the second component of the result exactly as the
JavaScript object reference is shared with the caller (the service performs
no assignment to any of its fields, so every path returns it unchanged).

Control flow of the promise executor: a drawing failure during the
synchronous layout phase — including the `switchToPage` throw of the footer
pass on a multi-page document — is caught by the executor's `try`/`catch`
and rejects the promise without the stream ever finishing.  When the
synchronous phase completes, the `'end'` stream event fires asynchronously,
after the executor has returned; the handler concatenates the buffer and —
when an output path was requested — calls `fs.writeFileSync` before
resolving.  A `writeFileSync` throw therefore happens outside the
executor's `try`/`catch`: neither `resolve` nor `reject` runs, and the
error escapes as an uncaught exception. -/
def generateArticlePDFRun (env : Env) (a : Article) (outputPath : Option String) :
    RenderOutcome × Article :=
  match env.drawError with
  | some e => (RenderOutcome.rejected e, a)
  | none =>
    let d := forwardPass env a
    let ps := env.paginate d.cur
    match addFooter env ps with
    | Except.error e => (RenderOutcome.rejected e, a)
    | Except.ok ps2 =>
      let buf : PdfBuffer := ⟨serializePages ps2, ps2.length⟩
      match outputPath, env.writeError with
      | some _, some e => (RenderOutcome.uncaught e, a)
      | some p, none => (RenderOutcome.resolved buf (some p), a)
      | none, _ => (RenderOutcome.resolved buf none, a)

/-- The outcome the caller observes from `generateArticlePDF`. -/
def generateArticlePDF (env : Env) (a : Article) (outputPath : Option String) :
    RenderOutcome :=
  (generateArticlePDFRun env a outputPath).1

/-! ## Specification-side definitions

These follow the specification's wording (the ordered rule set with
first-match semantics, and the greedy chip packing) and are compared with
the source translation above. -/

/-- One classification rule of the specification's fixed-priority rule set:
a predicate on the trimmed line and the layout action it selects. -/
structure Rule where
  test : String → Bool
  act : Env → Doc → String → Doc

/-- The specification's rule set, in its stated order: empty line, `### `,
`## `, `# `, bullet, numbered, blockquote, bold delimiter. -/
def priorityRules : List Rule :=
  [⟨fun l => l == "", fun env d _ => d.moveDown env 0.3⟩,
   ⟨fun l => sw "### " l, h3Act⟩,
   ⟨fun l => sw "## " l, h2Act⟩,
   ⟨fun l => sw "# " l, h1Act⟩,
   ⟨fun l => sw "- " l || sw "* " l, bulletAct⟩,
   ⟨fun l => matchesNumbered l, numberedAct⟩,
   ⟨fun l => sw "> " l, quoteAct⟩,
   ⟨fun l => hasBold l, processBoldTextD⟩]

/-- First-match evaluation of an ordered rule list: the FIRST rule whose
predicate holds wins, regardless of later rules; when no rule matches the
line is a plain paragraph. -/
def applyRules (env : Env) (d : Doc) (l : String) : List Rule → Doc
  | [] => paragraphAct env d l
  | r :: rs => if r.test l then r.act env d l else applyRules env d l rs

/-- Pure mirror of the chip loop for proofs: from a pen position and a line
anchor, the list of commands the loop records and the final line anchor.
The pen advances by the chip width plus 16: the in-loop text call writes
the pen to `chip x + 8` and the loop then adds `tagWidth + 8`. -/
def chipsGo (env : Env) (x ty : ℚ) : List String → List Cmd × ℚ
  | [] => ([], ty)
  | t :: ts =>
    let tagText := "#" ++ t
    let cw := env.widthOf tagText + 16
    let xt := if x + cw > pageWidth - defaultMargin
              then (defaultMargin + 70, ty + 20)
              else (x, ty)
    let rest := chipsGo env (xt.1 + 8 + cw + 8) xt.2 ts
    (Cmd.rect xt.1 (xt.2 - 2) cw 16 "#dbeafe" "#3b82f6" ::
       Cmd.text tagText (xt.1 + 8) (xt.2 + 2) "Helvetica" 9 "#1e40af" {} :: rest.1,
     rest.2)

/-- The chip width of a tag: the measured width of its `#`-prefixed text
plus the fixed 16-point padding. -/
def chipW (env : Env) (t : String) : ℚ :=
  env.widthOf ("#" ++ t) + 16

/-! ## Concrete fixtures for witnesses -/

/-- A concrete device environment for witnesses: every string measures 300
points wide, a line unit is 12 points, no failure is injected. -/
def envW : Env where
  widthOf := fun _ => 300
  lineUnit := 12
  textH := fun _ => 12
  paginate := fun l => [l]
  fmtDate := fun s => s
  nowStr := "1/1/2025"
  drawError := none
  writeError := none

/-- A device whose metrics break the drawn stream after its first command
(every drawn element taller than a page): the forward pass commits two
pages. -/
def envTwoPages : Env :=
  { envW with paginate := fun l => [l.take 1, l.drop 1] }

/-- A document whose cursor starts at the top, for concrete metadata-row
evaluations. -/
def docY0 : Doc :=
  { y := 0 }

/-- A concrete article for witnesses. -/
def articleW : Article where
  title := "Hello World Article"
  createdByName := some "Ada Lovelace"
  createdByEmail := none
  createdAt := "2025-01-01T00:00:00.000Z"
  updatedAt := "2025-01-02T00:00:00.000Z"
  viewCount := some 3
  tags := ["alpha", "beta"]
  summary := none
  content := "# Intro\nplain **bold** tail"

/-- An article whose title is empty. -/
def articleEmptyTitle : Article :=
  { articleW with title := "" }

/-- An article whose title is sixty `a` characters. -/
def articleLongTitle : Article :=
  { articleW with title := ⟨List.replicate 60 'a'⟩ }

/-! ## Lemmas about underscore collapsing -/

/-- Inside a run, the collapser never emits a leading underscore. -/
theorem collapseGo_head_ne (l : List Char) :
    ∀ c cs, collapseGo true l = c :: cs → c ≠ '_' := by
  induction l with
  | nil => intro c cs h; simp [collapseGo] at h
  | cons a rest ih =>
    intro c cs h
    by_cases ha : a = '_'
    · rw [show collapseGo true (a :: rest) = collapseGo true rest by simp [collapseGo, ha]] at h
      exact ih c cs h
    · rw [show collapseGo true (a :: rest) = a :: collapseGo false rest by simp [collapseGo, ha]] at h
      cases h
      exact ha

/-- The collapsed list never contains two consecutive underscores. -/
theorem hasDD_collapseGo (l : List Char) : ∀ b, hasDD (collapseGo b l) = false := by
  induction l with
  | nil => intro b; rfl
  | cons a rest ih =>
    intro b
    by_cases ha : a = '_'
    · cases b with
      | true =>
        rw [show collapseGo true (a :: rest) = collapseGo true rest by simp [collapseGo, ha]]
        exact ih true
      | false =>
        rw [show collapseGo false (a :: rest) = '_' :: collapseGo true rest by
              simp [collapseGo, ha]]
        rcases hX : collapseGo true rest with _ | ⟨x, xs⟩
        · rfl
        · have hx : x ≠ '_' := collapseGo_head_ne rest x xs hX
          have h2 := ih true
          rw [hX] at h2
          rw [hasDD, h2]
          simp [hx]
    · rw [show collapseGo b (a :: rest) = a :: collapseGo false rest by simp [collapseGo, ha]]
      rcases hX : collapseGo false rest with _ | ⟨x, xs⟩
      · rfl
      · have h2 := ih false
        rw [hX] at h2
        rw [hasDD, h2]
        simp [ha]

/-- Truncation cannot create a double underscore. -/
theorem hasDD_take_false (l : List Char) :
    ∀ n, hasDD l = false → hasDD (l.take n) = false := by
  induction l with
  | nil => intro n _; simp [hasDD]
  | cons a rest ih =>
    intro n h
    cases n with
    | zero => rfl
    | succ m =>
      cases rest with
      | nil => cases m <;> simp [hasDD]
      | cons b rest2 =>
        rw [hasDD, Bool.or_eq_false_iff] at h
        cases m with
        | zero => simp [hasDD, h.1]
        | succ k =>
          have := ih (k + 1) h.2
          simp only [List.take_succ_cons] at this ⊢
          rw [hasDD, this, h.1]
          rfl

/-- Every character surviving the collapse was in the input. -/
theorem mem_collapseGo (l : List Char) :
    ∀ b c, c ∈ collapseGo b l → c ∈ l := by
  induction l with
  | nil => intro b c h; simp [collapseGo] at h
  | cons a rest ih =>
    intro b c h
    by_cases ha : a = '_'
    · cases b with
      | true =>
        rw [show collapseGo true (a :: rest) = collapseGo true rest by simp [collapseGo, ha]] at h
        exact List.mem_cons_of_mem a (ih true c h)
      | false =>
        rw [show collapseGo false (a :: rest) = '_' :: collapseGo true rest by
              simp [collapseGo, ha]] at h
        rcases List.mem_cons.mp h with h | h
        · subst h; rw [ha]; exact List.mem_cons_self _ _
        · exact List.mem_cons_of_mem a (ih true c h)
    · rw [show collapseGo b (a :: rest) = a :: collapseGo false rest by simp [collapseGo, ha]] at h
      rcases List.mem_cons.mp h with h | h
      · subst h; exact List.mem_cons_self _ _
      · exact List.mem_cons_of_mem a (ih false c h)

/-- Every character of the sanitized title is alphanumeric or an
underscore. -/
theorem mem_sanitizeChars (l : List Char) :
    ∀ c ∈ sanitizeChars l, isAsciiAlnum c = true ∨ c = '_' := by
  intro c hc
  rcases List.mem_map.mp hc with ⟨a, _, ha⟩
  by_cases h : isAsciiAlnum a = true
  · left; rw [← ha]; simp [sanitizeChars, h]
  · right; rw [← ha]; simp [Bool.not_eq_true] at h; simp [h]

/-- The length of a concatenation of strings. -/
theorem string_length_append (s t : String) : (s ++ t).length = s.length + t.length := by
  cases s; cases t
  simp [String.length, String.append, List.length_append]

/-! ## Claim C3 — filename derivation -/

/-- C3 fails as stated: the fixed `article_` prefix and `_<date>.pdf` suffix
are joined to the sanitized title with literal underscores, so an empty
title yields `article__<date>.pdf`, which contains two consecutive
underscores; and a 50-character surviving title makes the full name 73
characters long, exceeding 50 plus the length of the date suffix
`_<date>.pdf` (65). -/
theorem filename_claim_counterexample :
    generateFilename articleEmptyTitle "2025-06-15" = "article__2025-06-15.pdf" ∧
    hasDD (generateFilename articleEmptyTitle "2025-06-15").data = true ∧
    50 + ("_2025-06-15.pdf" : String).length <
      (generateFilename articleLongTitle "2025-06-15").length := by
  refine ⟨by decide, by decide, by decide⟩

/-- C3 (amended): `generateFilename` is total and deterministic in the title
and the date, and returns `article_<t>_<date>.pdf` where `t` is the
sanitized, underscore-collapsed title truncated to 50 characters: `t` itself
contains no two consecutive underscores and only `[a-zA-Z0-9_]` characters,
and the full name is non-empty with length exactly
`8 + |t| + 1 + |date| + 4 ≤ 63 + |date|`.  (The full name can contain a
double underscore at the junctions when `t` is empty or starts or ends with
an underscore.) -/
theorem filename_amended (a : Article) (dateStr : String) :
    ∃ t : String,
      generateFilename a dateStr = "article_" ++ t ++ "_" ++ dateStr ++ ".pdf" ∧
      t.length ≤ 50 ∧
      hasDD t.data = false ∧
      (∀ c ∈ t.data, isAsciiAlnum c = true ∨ c = '_') ∧
      (generateFilename a dateStr).length = 13 + t.length + dateStr.length ∧
      generateFilename a dateStr ≠ "" := by
  have hlen : (generateFilename a dateStr).length =
      13 + ((collapseUnderscores (sanitizeChars a.title.data)).take 50).length
        + dateStr.length := by
    have h8 : ("article_" : String).length = 8 := by decide
    have h1 : ("_" : String).length = 1 := by decide
    have h4 : (".pdf" : String).length = 4 := by decide
    have hmk : ∀ l : List Char, (⟨l⟩ : String).length = l.length := fun _ => rfl
    simp only [generateFilename]
    rw [string_length_append, string_length_append, string_length_append,
      string_length_append, h8, h1, h4, hmk]
    omega
  refine ⟨⟨(collapseUnderscores (sanitizeChars a.title.data)).take 50⟩, rfl, ?_, ?_, ?_, hlen, ?_⟩
  · exact List.length_take_le _ _
  · exact hasDD_take_false _ 50 (hasDD_collapseGo _ false)
  · intro c hc
    exact mem_sanitizeChars _ c (mem_collapseGo _ false c (List.mem_of_mem_take hc))
  · intro h
    rw [h, show ("" : String).length = 0 from rfl] at hlen
    omega

/-! ## Claim C4 — fixed-priority line classification -/

/-- Each line's processing equals first-match evaluation of the ordered rule
set on the trimmed line. -/
theorem renderLine_eq_applyRules (env : Env) (d : Doc) (line : String) :
    renderLine env d line = applyRules env d (jsTrim line) priorityRules := rfl

/-- C4: the body is split on newline characters, each line is trimmed and
classified by first-match evaluation of the fixed-priority rule set (empty,
`### `, `## `, `# `, bullet, numbered, blockquote, bold, paragraph), the
first matching rule winning; in particular `### Title` selects the
sub-heading action and not the top-level-heading action, and a bullet line
containing the bold delimiter selects the bullet action. -/
theorem markdown_classification_priority (env : Env) (d : Doc) (content : String) :
    processMarkdownContent env content d =
      (jsLines content).foldl
        (fun d line => applyRules env d (jsTrim line) priorityRules) d ∧
    renderLine env d "### Title" = h3Act env d "### Title" ∧
    renderLine env d "### Title" ≠ h1Act env d "### Title" ∧
    renderLine env d "- item with **bold**" = bulletAct env d "- item with **bold**" := by
  refine ⟨rfl, rfl, ?_, rfl⟩
  intro h
  have hc := congrArg Doc.cur h
  have hc' : d.cur ++
      [Cmd.text "Title" d.x d.y "Helvetica-Bold" 12 "#374151" { lineGap := 6 }] =
      d.cur ++
      [Cmd.text "# Title" d.x d.y "Helvetica-Bold" 16 "#1f2937" { lineGap := 8 }] := hc
  have := List.append_cancel_left hc'
  simp [Cmd.text.injEq] at this

/-! ## Claim C10 — `#` without a trailing space falls through -/

/-- C10: a trimmed line that starts with `#` but not with any of the exact
heading prefixes `# `, `## `, `### ` selects no heading action: it cannot
match the empty, bullet, numbered or blockquote rules either, so it goes to
the bold splitter when it contains the bold delimiter and otherwise renders
as a plain paragraph. -/
theorem hash_without_space_falls_through (env : Env) (d : Doc) (s : String)
    (h1 : sw "#" (jsTrim s) = true)
    (h2 : sw "### " (jsTrim s) = false)
    (h3 : sw "## " (jsTrim s) = false)
    (h4 : sw "# " (jsTrim s) = false) :
    renderLine env d s =
      if hasBold (jsTrim s) then processBoldTextD env d (jsTrim s)
      else paragraphAct env d (jsTrim s) := by
  obtain ⟨t, ht⟩ : ∃ t, (jsTrim s).data = '#' :: t := by
    unfold sw at h1
    rcases hd : (jsTrim s).data with _ | ⟨c, cs⟩
    · rw [hd] at h1
      simp [List.isPrefixOf] at h1
    · rw [hd] at h1
      simp [List.isPrefixOf] at h1
      exact ⟨cs, by rw [h1]⟩
  have hne : ((jsTrim s) == "") = false := by
    rw [beq_eq_false_iff_ne]
    intro he
    rw [he] at ht
    simp at ht
  have hb1 : sw "- " (jsTrim s) = false := by unfold sw; rw [ht]; rfl
  have hb2 : sw "* " (jsTrim s) = false := by unfold sw; rw [ht]; rfl
  have hq : sw "> " (jsTrim s) = false := by unfold sw; rw [ht]; rfl
  have hn : matchesNumbered (jsTrim s) = false := by
    unfold matchesNumbered
    rw [ht]
    rfl
  simp only [renderLine, hne, h2, h3, h4, hb1, hb2, hq, hn, Bool.or_self,
    Bool.false_eq_true, if_false]

/-- Witness for C10 at the concrete line `#Title`. -/
theorem hash_without_space_falls_through_witness :
    sw "#" (jsTrim "#Title") = true ∧
    sw "### " (jsTrim "#Title") = false ∧
    sw "## " (jsTrim "#Title") = false ∧
    sw "# " (jsTrim "#Title") = false ∧
    renderLine envW {} "#Title" =
      (if hasBold (jsTrim "#Title") then processBoldTextD envW {} (jsTrim "#Title")
       else paragraphAct envW {} (jsTrim "#Title")) :=
  ⟨by decide, by decide, by decide, by decide,
   hash_without_space_falls_through envW {} "#Title" (by decide) (by decide) (by decide) (by decide)⟩

/-! ## Claim C5 — inline bold splitter -/

/-- The even (regular-face) iteration of the bold loop: recorded fragment. -/
theorem boldStepEven_cur (env : Env) (p : String) (d : Doc) (c : Bool) :
    ((((d.setFont "Helvetica").setSize 10).setFill "#374151").textFlow env p
        { continued := c }).cur =
      d.cur ++ [Cmd.text p d.x d.y "Helvetica" 10 "#374151" { continued := c }] := by
  simp only [Doc.textFlow, Doc.setFont, Doc.setSize, Doc.setFill]
  split <;> rfl

/-- The even iteration leaves the pen, size and colour state with the
regular face, size 10 and the body colour, and keeps the cursor position
when the fragment is continued. -/
theorem boldStepEven_state (env : Env) (p : String) (d : Doc) (c : Bool) :
    (((((d.setFont "Helvetica").setSize 10).setFill "#374151").textFlow env p
        { continued := c }).x = d.x) ∧
    ((((((d.setFont "Helvetica").setSize 10).setFill "#374151").textFlow env p
        { continued := c }).size = 10)) ∧
    ((((((d.setFont "Helvetica").setSize 10).setFill "#374151").textFlow env p
        { continued := c }).fill = "#374151")) ∧
    (c = true → ((((d.setFont "Helvetica").setSize 10).setFill "#374151").textFlow env p
        { continued := c }).y = d.y) := by
  simp only [Doc.textFlow, Doc.setFont, Doc.setSize, Doc.setFill]
  exact ⟨by split <;> rfl, by split <;> rfl, by split <;> rfl, fun hc => by rw [hc]; rfl⟩

/-- The odd (bold-face) iteration of the bold loop: recorded fragment, given
that the size and colour were set by a previous even iteration. -/
theorem boldStepOdd_cur (env : Env) (p : String) (d : Doc) (c : Bool)
    (hs : d.size = 10) (hf : d.fill = "#374151") :
    ((d.setFont "Helvetica-Bold").textFlow env p { continued := c }).cur =
      d.cur ++ [Cmd.text p d.x d.y "Helvetica-Bold" 10 "#374151" { continued := c }] := by
  simp only [Doc.textFlow, Doc.setFont, hs, hf]
  split <;> rfl

/-- The odd iteration preserves the pen, size and colour, and keeps the
cursor position when the fragment is continued. -/
theorem boldStepOdd_state (env : Env) (p : String) (d : Doc) (c : Bool) :
    (((d.setFont "Helvetica-Bold").textFlow env p { continued := c }).x = d.x) ∧
    (((d.setFont "Helvetica-Bold").textFlow env p { continued := c }).size = d.size) ∧
    (((d.setFont "Helvetica-Bold").textFlow env p { continued := c }).fill = d.fill) ∧
    (c = true → ((d.setFont "Helvetica-Bold").textFlow env p { continued := c }).y = d.y) := by
  simp only [Doc.textFlow, Doc.setFont]
  exact ⟨by split <;> rfl, by split <;> rfl, by split <;> rfl, fun hc => by rw [hc]; rfl⟩

/-- Command-level characterisation of the `processBoldText` loop: starting
at index `k` (with the size and colour already set when `k` is odd), the
loop appends one text fragment per part — regular face at even indices,
bold face at odd indices, each fragment continued except the one at global
index `n - 1` — all anchored at the current cursor position. -/
theorem boldLoop_cur (env : Env) (n : Nat) :
    ∀ (ps : List String) (k : Nat) (d : Doc), k + ps.length = n →
      (k % 2 = 0 ∨ (d.size = 10 ∧ d.fill = "#374151")) →
      (boldLoop env n ps k d).cur =
        d.cur ++ (ps.enumFrom k).map (fun ip =>
          Cmd.text ip.2 d.x d.y
            (if ip.1 % 2 = 0 then "Helvetica" else "Helvetica-Bold")
            10 "#374151" { continued := decide (ip.1 < n - 1) }) := by
  intro ps
  induction ps with
  | nil => intro k d _ _; simp [boldLoop, List.enumFrom]
  | cons p rest ih =>
    intro k d hk hinv
    have hrest : (k + 1) + rest.length = n := by
      simp only [List.length_cons] at hk
      omega
    by_cases hk2 : k % 2 = 0
    · simp only [boldLoop, if_pos hk2]
      cases rest with
      | nil =>
        simp only [boldLoop, List.enumFrom, List.map, boldStepEven_cur, if_pos hk2]
      | cons q qs =>
        have hklt : decide (k < n - 1) = true := by
          simp only [List.length_cons] at hk
          simp
          omega
        rw [ih (k + 1) _ hrest
            (Or.inr ⟨(boldStepEven_state env p d _).2.1, (boldStepEven_state env p d _).2.2.1⟩)]
        rw [boldStepEven_cur, (boldStepEven_state env p d _).1,
          (boldStepEven_state env p d _).2.2.2 hklt]
        simp only [List.enumFrom, List.map, if_pos hk2, List.append_assoc, List.cons_append,
          List.nil_append]
    · rcases hinv with h | ⟨hs, hf⟩
      · exact absurd h hk2
      simp only [boldLoop, if_neg hk2]
      cases rest with
      | nil =>
        simp only [boldLoop, List.enumFrom, List.map, boldStepOdd_cur env p d _ hs hf, if_neg hk2]
      | cons q qs =>
        have hklt : decide (k < n - 1) = true := by
          simp only [List.length_cons] at hk
          simp
          omega
        rw [ih (k + 1) _ hrest
            (Or.inr ⟨by rw [(boldStepOdd_state env p d _).2.1, hs],
                     by rw [(boldStepOdd_state env p d _).2.2.1, hf]⟩)]
        rw [boldStepOdd_cur env p d _ hs hf, (boldStepOdd_state env p d _).1,
          (boldStepOdd_state env p d _).2.2.2 hklt]
        simp only [List.enumFrom, List.map, if_neg hk2, List.append_assoc, List.cons_append,
          List.nil_append]

/-- C5: for a line containing the bold delimiter, `processBoldText` splits
the line on the delimiter and appends, at the current cursor position, one
text fragment per split part — regular face at even split indices, bold
face at odd indices — every fragment continued on the same visual line
except the final one, which terminates the line; an odd number of
delimiters needs no pairing: the trailing part is simply rendered by its
index parity. -/
theorem bold_splitter_segments (env : Env) (d : Doc) (t : String)
    (_h : hasBold t = true) :
    (processBoldTextD env d t).cur =
      d.cur ++ ((splitBold t).enum.map fun ip =>
        Cmd.text ip.2 d.x d.y
          (if ip.1 % 2 = 0 then "Helvetica" else "Helvetica-Bold")
          10 "#374151"
          { continued := decide (ip.1 < (splitBold t).length - 1) }) := by
  clear _h
  show (Doc.moveDown _ _ _).cur = _
  rw [show ∀ dd : Doc, (dd.moveDown env 0.2).cur = dd.cur from fun _ => rfl]
  exact boldLoop_cur env (splitBold t).length (splitBold t) 0 d (by simp) (Or.inl rfl)

/-- Witness for C5 on `plain **bold** tail` (one delimiter pair: three
fragments, the middle one bold) applied at the concrete fixtures. -/
theorem bold_splitter_segments_witness :
    hasBold "plain **bold** tail" = true ∧
    (processBoldTextD envW {} "plain **bold** tail").cur =
      (({} : Doc)).cur ++ ((splitBold "plain **bold** tail").enum.map fun ip =>
        Cmd.text ip.2 ({} : Doc).x ({} : Doc).y
          (if ip.1 % 2 = 0 then "Helvetica" else "Helvetica-Bold")
          10 "#374151"
          { continued := decide (ip.1 < (splitBold "plain **bold** tail").length - 1) }) :=
  ⟨by decide, bold_splitter_segments envW {} "plain **bold** tail" (by decide)⟩

/-! ## Claim C6 — metadata row placement -/

/-- C6 fails on the code: `doc.text(value, x, y)` writes the cursor back
(the vertical cursor advances below the drawn text), and the row loop
re-reads `doc.y` every iteration (`const y = doc.y + index * 18`), so row
`i` does NOT sit at `origin + i * 18`.  Its position accumulates the
rendered heights of every preceding row's value text and compounds the
`index * 18` terms: row `i` sits at
`origin + Σ_{j<i} textH(value_j) + 9 * i * (i + 1)`.

The first conjunct is the general closed form; the remaining conjuncts
evaluate the loop on a device whose every text renders 12 points high: the
ten stamped fragments sit at heights `0, 0, 30, 30, 78, 78, 144, 144, 228,
228` — not at the claimed fixed increments `0, 18, 36, 54, 72` (and the
last row, 228, lies far outside the 120-point metadata box the code draws
for these rows, betraying the intended fixed-18 layout). -/
theorem metadata_rows_drift :
    (∀ (env : Env) (a : Article) (d : Doc),
      textYs (metadataLoop env (metadataRows env a) d) =
        textYs d ++
          [d.y, d.y,
           d.y + env.textH (orElseStr a.createdByName "Unknown Author") + 18,
           d.y + env.textH (orElseStr a.createdByName "Unknown Author") + 18,
           d.y + env.textH (orElseStr a.createdByName "Unknown Author")
               + env.textH (orElseStr a.createdByEmail "N/A") + 54,
           d.y + env.textH (orElseStr a.createdByName "Unknown Author")
               + env.textH (orElseStr a.createdByEmail "N/A") + 54,
           d.y + env.textH (orElseStr a.createdByName "Unknown Author")
               + env.textH (orElseStr a.createdByEmail "N/A")
               + env.textH (env.fmtDate a.createdAt) + 108,
           d.y + env.textH (orElseStr a.createdByName "Unknown Author")
               + env.textH (orElseStr a.createdByEmail "N/A")
               + env.textH (env.fmtDate a.createdAt) + 108,
           d.y + env.textH (orElseStr a.createdByName "Unknown Author")
               + env.textH (orElseStr a.createdByEmail "N/A")
               + env.textH (env.fmtDate a.createdAt)
               + env.textH (env.fmtDate a.updatedAt) + 180,
           d.y + env.textH (orElseStr a.createdByName "Unknown Author")
               + env.textH (orElseStr a.createdByEmail "N/A")
               + env.textH (env.fmtDate a.createdAt)
               + env.textH (env.fmtDate a.updatedAt) + 180]) ∧
    textYs (metadataLoop envW (metadataRows envW articleW) docY0) =
      ([0, 0, 30, 30, 78, 78, 144, 144, 228, 228] : List ℚ) ∧
    textYs (metadataLoop envW (metadataRows envW articleW) docY0) ≠
      ([0, 0, 18, 18, 36, 36, 54, 54, 72, 72] : List ℚ) := by
  have hgen : ∀ (env : Env) (a : Article) (d : Doc),
      textYs (metadataLoop env (metadataRows env a) d) =
        textYs d ++
          [d.y, d.y,
           d.y + env.textH (orElseStr a.createdByName "Unknown Author") + 18,
           d.y + env.textH (orElseStr a.createdByName "Unknown Author") + 18,
           d.y + env.textH (orElseStr a.createdByName "Unknown Author")
               + env.textH (orElseStr a.createdByEmail "N/A") + 54,
           d.y + env.textH (orElseStr a.createdByName "Unknown Author")
               + env.textH (orElseStr a.createdByEmail "N/A") + 54,
           d.y + env.textH (orElseStr a.createdByName "Unknown Author")
               + env.textH (orElseStr a.createdByEmail "N/A")
               + env.textH (env.fmtDate a.createdAt) + 108,
           d.y + env.textH (orElseStr a.createdByName "Unknown Author")
               + env.textH (orElseStr a.createdByEmail "N/A")
               + env.textH (env.fmtDate a.createdAt) + 108,
           d.y + env.textH (orElseStr a.createdByName "Unknown Author")
               + env.textH (orElseStr a.createdByEmail "N/A")
               + env.textH (env.fmtDate a.createdAt)
               + env.textH (env.fmtDate a.updatedAt) + 180,
           d.y + env.textH (orElseStr a.createdByName "Unknown Author")
               + env.textH (orElseStr a.createdByEmail "N/A")
               + env.textH (env.fmtDate a.createdAt)
               + env.textH (env.fmtDate a.updatedAt) + 180] := by
    intro env a d
    simp only [metadataRows, metadataLoop, List.enum, List.enumFrom, List.foldl,
      Doc.textAt, Doc.setFont]
    simp only [textYs, List.filterMap_append, List.append_assoc,
      List.filterMap_cons, List.filterMap_nil]
    push_cast
    ring_nf
    simp only [List.singleton_append, List.cons_append, List.nil_append]
  refine ⟨hgen, ?_, ?_⟩
  · rw [hgen envW articleW docY0]
    simp only [textYs, docY0, envW, List.filterMap_nil, List.nil_append]
    norm_num
  · rw [hgen envW articleW docY0]
    simp only [textYs, docY0, envW, List.filterMap_nil, List.nil_append]
    norm_num

/-! ## Claim C7 — greedy tag-chip packing -/

/-- The chip loop records exactly the commands of the pure mirror `chipsGo`
started at the current pen position, and returns its final line anchor. -/
theorem tagsLoop_chipsGo (env : Env) :
    ∀ (tags : List String) (d : Doc) (ty : ℚ),
      (tagsLoop env tags d ty).1.cur = d.cur ++ (chipsGo env d.x ty tags).1 ∧
      (tagsLoop env tags d ty).2 = (chipsGo env d.x ty tags).2 := by
  intro tags
  induction tags with
  | nil => intro d ty; simp [tagsLoop, chipsGo]
  | cons t ts ih =>
    intro d ty
    by_cases hw : d.x + (env.widthOf ("#" ++ t) + 16) > pageWidth - defaultMargin
    · simp only [tagsLoop, chipsGo, if_pos hw]
      rcases ih _ (ty + 20) with ⟨ihc, ihy⟩
      rw [ihc, ihy]
      simp [Doc.record, Doc.textAt, Doc.setFill, Doc.setFont, Doc.setSize]
    · simp only [tagsLoop, chipsGo, if_neg hw]
      rcases ih _ ty with ⟨ihc, ihy⟩
      rw [ihc, ihy]
      simp [Doc.record, Doc.textAt, Doc.setFill, Doc.setFont, Doc.setSize]

/-- Each tag contributes exactly one text command holding its whole
`#`-prefixed text: no tag's glyphs are split across chips. -/
theorem chipsGo_texts (env : Env) :
    ∀ (ts : List String) (x ty : ℚ),
      textsOf (chipsGo env x ty ts).1 = ts.map (fun t => "#" ++ t) := by
  intro ts
  induction ts with
  | nil => intro x ty; rfl
  | cons t rest ih =>
    intro x ty
    simp only [chipsGo, textsOf, List.filterMap_cons, List.map_cons]
    simp only [textsOf] at ih
    rw [ih]

/-- Each chip rectangle is exactly 16 points wider than its measured
text. -/
theorem chipsGo_widths (env : Env) :
    ∀ (ts : List String) (x ty : ℚ),
      (rectsOf (chipsGo env x ty ts).1).map (fun r => r.2.2) = ts.map (chipW env) := by
  intro ts
  induction ts with
  | nil => intro x ty; rfl
  | cons t rest ih =>
    intro x ty
    simp only [chipsGo, rectsOf, List.filterMap_cons, List.map_cons, chipW]
    simp only [rectsOf] at ih
    rw [ih]

/-- The first chip of a run sits on the incoming line anchor, or on a fresh
line 20 points lower at the fixed indent. -/
theorem chipsGo_head (env : Env) :
    ∀ (ts : List String) (x ty : ℚ) (r : ℚ × ℚ × ℚ) (rs : List (ℚ × ℚ × ℚ)),
      rectsOf (chipsGo env x ty ts).1 = r :: rs →
      r.2.1 = ty - 2 ∨ (r.2.1 = (ty + 20) - 2 ∧ r.1 = defaultMargin + 70) := by
  intro ts
  cases ts with
  | nil => intro x ty r rs h; simp [chipsGo, rectsOf] at h
  | cons t rest =>
    intro x ty r rs h
    by_cases hw : x + (env.widthOf ("#" ++ t) + 16) > pageWidth - defaultMargin
    · simp only [chipsGo, if_pos hw, rectsOf, List.filterMap_cons] at h
      rcases List.cons.injEq .. ▸ h with ⟨hr, _⟩
      right
      rw [← hr]
      exact ⟨rfl, rfl⟩
    · simp only [chipsGo, if_neg hw, rectsOf, List.filterMap_cons] at h
      rcases List.cons.injEq .. ▸ h with ⟨hr, _⟩
      left
      rw [← hr]

/-- Unfolding `rectsOf` over one chip pair. -/
theorem rectsOf_chip_cons (x y w tx typ : ℚ) (s : String) (rest : List Cmd) :
    rectsOf (Cmd.rect x y w 16 "#dbeafe" "#3b82f6" ::
      Cmd.text s tx typ "Helvetica" 9 "#1e40af" {} :: rest) = (x, y, w) :: rectsOf rest := rfl

/-- Consecutive chips either share a line anchor or the later one starts a
fresh line exactly 20 points lower at the fixed indent `margin + 70`. -/
theorem chipsGo_chain (env : Env) :
    ∀ (ts : List String) (x ty : ℚ),
      List.Chain' (fun a b : ℚ × ℚ × ℚ =>
          b.2.1 = a.2.1 ∨ (b.2.1 = a.2.1 + 20 ∧ b.1 = defaultMargin + 70))
        (rectsOf (chipsGo env x ty ts).1) := by
  intro ts
  induction ts with
  | nil => intro x ty; simp [chipsGo, rectsOf]
  | cons t rest ih =>
    intro x ty
    by_cases hw : x + (env.widthOf ("#" ++ t) + 16) > pageWidth - defaultMargin
    · rw [show (chipsGo env x ty (t :: rest)).1 =
          Cmd.rect (defaultMargin + 70) ((ty + 20) - 2) (env.widthOf ("#" ++ t) + 16) 16
              "#dbeafe" "#3b82f6" ::
            Cmd.text ("#" ++ t) (defaultMargin + 70 + 8) ((ty + 20) + 2) "Helvetica" 9 "#1e40af" {} ::
            (chipsGo env (defaultMargin + 70 + 8 + (env.widthOf ("#" ++ t) + 16) + 8) (ty + 20) rest).1
          from by simp only [chipsGo, if_pos hw],
        rectsOf_chip_cons]
      refine List.chain'_cons'.mpr ⟨?_, ih _ (ty + 20)⟩
      intro b hb
      rcases hh : rectsOf (chipsGo env (defaultMargin + 70 + 8 + (env.widthOf ("#" ++ t) + 16) + 8)
          (ty + 20) rest).1 with _ | ⟨r, rs⟩
      · rw [hh] at hb; simp at hb
      · rw [hh] at hb
        simp only [List.head?_cons, Option.mem_def, Option.some.injEq] at hb
        rcases chipsGo_head env rest _ _ r rs hh with h | ⟨h1, h2⟩
        · left; rw [← hb]; exact h
        · right; rw [← hb]; exact ⟨by rw [h1]; ring, h2⟩
    · rw [show (chipsGo env x ty (t :: rest)).1 =
          Cmd.rect x (ty - 2) (env.widthOf ("#" ++ t) + 16) 16 "#dbeafe" "#3b82f6" ::
            Cmd.text ("#" ++ t) (x + 8) (ty + 2) "Helvetica" 9 "#1e40af" {} ::
            (chipsGo env (x + 8 + (env.widthOf ("#" ++ t) + 16) + 8) ty rest).1
          from by simp only [chipsGo, if_neg hw],
        rectsOf_chip_cons]
      refine List.chain'_cons'.mpr ⟨?_, ih _ ty⟩
      intro b hb
      rcases hh : rectsOf (chipsGo env (x + 8 + (env.widthOf ("#" ++ t) + 16) + 8) ty rest).1
          with _ | ⟨r, rs⟩
      · rw [hh] at hb; simp at hb
      · rw [hh] at hb
        simp only [List.head?_cons, Option.mem_def, Option.some.injEq] at hb
        rcases chipsGo_head env rest _ _ r rs hh with h | ⟨h1, h2⟩
        · left; rw [← hb]; exact h
        · right; rw [← hb]; exact ⟨by rw [h1]; ring, h2⟩

/-- The line anchor never moves back up. -/
theorem chipsGo_ty_mono (env : Env) :
    ∀ (ts : List String) (x ty : ℚ), ty ≤ (chipsGo env x ty ts).2 := by
  intro ts
  induction ts with
  | nil => intro x ty; simp [chipsGo]
  | cons t rest ih =>
    intro x ty
    by_cases hw : x + (env.widthOf ("#" ++ t) + 16) > pageWidth - defaultMargin
    · simp only [chipsGo, if_pos hw]
      calc ty ≤ ty + 20 := by linarith
        _ ≤ _ := ih _ (ty + 20)
    · simp only [chipsGo, if_neg hw]
      exact ih _ ty

/-- When the cumulative chip widths exceed the width available from the
starting pen position, at least one wrap occurs: the final line anchor is at
least one 20-point line below the start. -/
theorem chipsGo_overflow_wraps (env : Env) :
    ∀ (ts : List String) (t : String) (x ty : ℚ),
      ((t :: ts).map (chipW env)).sum > (pageWidth - defaultMargin) - x →
      ty + 20 ≤ (chipsGo env x ty (t :: ts)).2 := by
  intro ts
  induction ts with
  | nil =>
    intro t x ty hsum
    by_cases hw : x + (env.widthOf ("#" ++ t) + 16) > pageWidth - defaultMargin
    · simp only [chipsGo, if_pos hw]
      exact le_refl _
    · exfalso
      simp only [List.map_cons, List.map_nil, List.sum_cons, List.sum_nil, chipW] at hsum
      push_neg at hw
      linarith
  | cons q qs ih =>
    intro t x ty hsum
    by_cases hw : x + (env.widthOf ("#" ++ t) + 16) > pageWidth - defaultMargin
    · simp only [chipsGo, if_pos hw]
      exact chipsGo_ty_mono env (q :: qs)
        (defaultMargin + 70 + 8 + (env.widthOf ("#" ++ t) + 16) + 8) (ty + 20)
    · simp only [chipsGo, if_neg hw]
      apply ih q (x + 8 + (env.widthOf ("#" ++ t) + 16) + 8) ty
      simp only [List.map_cons, List.sum_cons, chipW] at hsum ⊢
      push_neg at hw
      linarith

/-- C7: the chip loop packs tags greedily left to right in one pass: each
tag yields exactly one unsplit `#tag` text fragment and one chip rectangle
whose width is the measured text width plus the fixed 16-point padding;
consecutive chips stay on the same line anchor or wrap to a fresh line
exactly 20 points lower at the fixed indent `margin + 70`; and whenever the
cumulative chip widths exceed the width available on the starting line, at
least one wrap occurs. -/
theorem tag_chip_packing (env : Env) (tags : List String) (d : Doc) (y0 : ℚ) :
    ∃ dl,
      (tagsLoop env tags d y0).1.cur = d.cur ++ dl ∧
      textsOf dl = tags.map (fun t => "#" ++ t) ∧
      (rectsOf dl).map (fun r => r.2.2) = tags.map (chipW env) ∧
      List.Chain' (fun a b : ℚ × ℚ × ℚ =>
          b.2.1 = a.2.1 ∨ (b.2.1 = a.2.1 + 20 ∧ b.1 = defaultMargin + 70)) (rectsOf dl) ∧
      (tags ≠ [] → (tags.map (chipW env)).sum > (pageWidth - defaultMargin) - d.x →
        y0 + 20 ≤ (tagsLoop env tags d y0).2) := by
  refine ⟨(chipsGo env d.x y0 tags).1, (tagsLoop_chipsGo env tags d y0).1,
    chipsGo_texts env tags d.x y0, chipsGo_widths env tags d.x y0,
    chipsGo_chain env tags d.x y0, ?_⟩
  intro hne hsum
  rw [(tagsLoop_chipsGo env tags d y0).2]
  cases tags with
  | nil => exact absurd rfl hne
  | cons t ts => exact chipsGo_overflow_wraps env ts t d.x y0 hsum

/-- Witness for C7: two 300-point tags from a pen at `x = 50` exceed the
`495.28` points available, so the layout wraps. -/
theorem tag_chip_packing_witness :
    (["alpha", "beta"] : List String) ≠ [] ∧
    ((["alpha", "beta"] : List String).map (chipW envW)).sum >
      (pageWidth - defaultMargin) - ({} : Doc).x ∧
    (∃ dl,
      (tagsLoop envW ["alpha", "beta"] {} 200).1.cur = ({} : Doc).cur ++ dl ∧
      textsOf dl = (["alpha", "beta"] : List String).map (fun t => "#" ++ t) ∧
      (rectsOf dl).map (fun r => r.2.2) = (["alpha", "beta"] : List String).map (chipW envW) ∧
      List.Chain' (fun a b : ℚ × ℚ × ℚ =>
          b.2.1 = a.2.1 ∨ (b.2.1 = a.2.1 + 20 ∧ b.1 = defaultMargin + 70)) (rectsOf dl) ∧
      200 + 20 ≤ (tagsLoop envW ["alpha", "beta"] {} 200).2) := by
  have hsum : ((["alpha", "beta"] : List String).map (chipW envW)).sum >
      (pageWidth - defaultMargin) - ({} : Doc).x := by
    norm_num [chipW, envW, pageWidth, defaultMargin]
  refine ⟨by decide, hsum, ?_⟩
  rcases tag_chip_packing envW ["alpha", "beta"] {} 200 with ⟨dl, h1, h2, h3, h4, h5⟩
  exact ⟨dl, h1, h2, h3, h4, h5 (by decide) hsum⟩

/-! ## Claim C1 — footer pagination post-pass -/

/-- `modifyIdx` preserves the number of pages. -/
theorem length_modifyIdx (f : List Cmd → List Cmd) :
    ∀ (n : Nat) (l : List (List Cmd)), (modifyIdx f n l).length = l.length := by
  intro n
  induction n with
  | zero => intro l; cases l <;> rfl
  | succ m ih =>
    intro l
    cases l with
    | nil => rfl
    | cons p ps => simp [modifyIdx, ih]

/-- `modifyIdx` rewrites exactly the addressed page. -/
theorem getD_modifyIdx_eq (f : List Cmd → List Cmd) :
    ∀ (n : Nat) (l : List (List Cmd)), n < l.length →
      (modifyIdx f n l).getD n [] = f (l.getD n []) := by
  intro n
  induction n with
  | zero =>
    intro l hl
    cases l with
    | nil => simp at hl
    | cons p ps => rfl
  | succ m ih =>
    intro l hl
    cases l with
    | nil => simp at hl
    | cons p ps =>
      simp only [modifyIdx, List.getD_cons_succ]
      exact ih ps (by simpa using hl)

/-- `modifyIdx` leaves every other page untouched. -/
theorem getD_modifyIdx_ne (f : List Cmd → List Cmd) :
    ∀ (n j : Nat) (l : List (List Cmd)), n ≠ j →
      (modifyIdx f n l).getD j [] = l.getD j [] := by
  intro n
  induction n with
  | zero =>
    intro j l hj
    cases l with
    | nil => rfl
    | cons p ps =>
      cases j with
      | zero => exact absurd rfl hj
      | succ i => rfl
  | succ m ih =>
    intro j l hj
    cases l with
    | nil => rfl
    | cons p ps =>
      cases j with
      | zero => rfl
      | succ i =>
        simp only [modifyIdx, List.getD_cons_succ]
        exact ih i ps (fun h => hj (by rw [h]))

/-- With a single committed page, `bufferedPageRange()` is
`{start: 0, count: 1}`, so the loop's one iteration switches to page 0
successfully and stamps it. -/
theorem addFooter_single (env : Env) (pg : List Cmd) :
    addFooter env [pg] = Except.ok [pg ++ footerCmds env 1 0] := rfl

/-- C1 fails on the code for every multi-page document: the document is
created without the `bufferPages: true` option, so at footer time only the
last committed page is still buffered (`bufferedPageRange()` is
`{start: N - 1, count: 1}`).  The loop `for (i = 0; i < pages.count; i++)`
therefore runs once with `i = 0`: on a single-page document page 1 is
stamped `Page 1 of 1` (the only case in which the claim holds), while on
any document of two or more pages `switchToPage(0)` throws out of bounds
and no page is stamped at all. -/
theorem footer_stamps_only_when_single_page (env : Env) :
    (∀ pg : List Cmd, addFooter env [pg] =
      Except.ok [pg ++
        [Cmd.line defaultMargin (pageHeight - 60) (pageWidth - defaultMargin)
           (pageHeight - 60) "#e5e7eb" 1,
         Cmd.text ("Generated by ArticleHub | " ++ env.nowStr) defaultMargin (pageHeight - 45)
           "Helvetica" 8 "#9ca3af" { align := TextAlign.left },
         Cmd.text ("Page " ++ toString 1 ++ " of " ++ toString 1) defaultMargin
           (pageHeight - 45) "Helvetica" 8 "#9ca3af" { align := TextAlign.right }]]) ∧
    (∀ (p q : List Cmd) (ps : List (List Cmd)),
      addFooter env (p :: q :: ps) = Except.error "switchToPage out of bounds") := by
  constructor
  · intro pg
    exact addFooter_single env pg
  · intro p q ps
    simp [addFooter, stampPage, List.range_succ]

/-! ## Claim C2 — non-empty buffer, page count at least one -/

/-- The serialized byte stream always starts with the `%PDF` magic and is
therefore non-empty. -/
theorem serializePages_ne_empty (ps : List (List Cmd)) : serializePages ps ≠ "" := by
  intro h
  have hl := congrArg String.length h
  rw [serializePages, string_length_append, show ("" : String).length = 0 from rfl,
    show ("%PDF" : String).length = 4 from rfl] at hl
  omega

/-- C2 fails on the code: a render whose content lays out to two or more
pages rejects deterministically ("switchToPage out of bounds" thrown by the
footer pass inside the executor's `try`/`catch`), buffer or no buffer.  The
second conjunct evaluates the pipeline on a device whose metrics commit two
pages: the promise rejects even though the content is non-empty.  The third
conjunct is the only case in which the claim holds: when the forward pass
commits a single page, the render resolves with a non-empty buffer whose
declared page count is 1. -/
theorem render_multipage_rejects :
    articleW.content ≠ "" ∧
    generateArticlePDF envTwoPages articleW none =
      RenderOutcome.rejected "switchToPage out of bounds" ∧
    (∀ (env : Env) (a : Article), env.drawError = none →
      (env.paginate (forwardPass env a).cur).length = 1 →
      ∃ buf : PdfBuffer,
        generateArticlePDF env a none = RenderOutcome.resolved buf none ∧
        buf.bytes ≠ "" ∧ 1 ≤ buf.pageCount) := by
  refine ⟨by decide, rfl, ?_⟩
  intro env a hdraw hlen
  obtain ⟨pg, hpg⟩ := List.length_eq_one.mp hlen
  unfold generateArticlePDF generateArticlePDFRun
  simp only [hdraw, hpg, addFooter_single]
  exact ⟨_, rfl, serializePages_ne_empty _, by simp⟩

/-- Witness for the single-page conjunct of the C2 record, at the concrete
fixtures (the fixture device commits one page). -/
theorem render_multipage_rejects_witness :
    envW.drawError = none ∧
    (envW.paginate (forwardPass envW articleW).cur).length = 1 ∧
    (∃ buf : PdfBuffer,
      generateArticlePDF envW articleW none = RenderOutcome.resolved buf none ∧
      buf.bytes ≠ "" ∧ 1 ≤ buf.pageCount) :=
  ⟨rfl, rfl, render_multipage_rejects.2.2 envW articleW rfl rfl⟩

/-! ## Claim C8 — destination-write failure reporting -/

/-- An environment whose filesystem write fails. -/
def envWErr : Env :=
  { envW with writeError := some "EACCES" }

/-- C8 fails as stated: when writing the finished buffer to the requested
path fails, the failure is not reported to the caller at all — the
exception is thrown inside the asynchronous `'end'` handler, outside the
executor's `try`/`catch`, so the promise never settles (it neither resolves
nor rejects), and the caller cannot distinguish anything through it. -/
theorem write_failure_unreported_counterexample :
    generateArticlePDF envWErr articleW (some "/tmp/out.pdf") =
      RenderOutcome.uncaught "EACCES" ∧
    (generateArticlePDF envWErr articleW (some "/tmp/out.pdf")).settles = false := by
  exact ⟨rfl, rfl⟩

/-- C8 (amended): a geometry/draw failure during the synchronous layout
phase is reported to the caller as a rejection of the returned promise; a
destination-write failure is not reported through the promise at all — the
`writeFileSync` throw happens in the asynchronous `'end'` handler outside
the executor's `try`/`catch`, so the promise never settles and the error
escapes as an uncaught exception.  The caller therefore cannot observe a
distinct "built but not saved" outcome through the returned promise.

The write path is reached only when the synchronous phase finished, i.e.
when the footer pass succeeded (a single-page commit): on a multi-page
commit the footer throw rejects first and the stream never ends, so
`writeFileSync` never runs. -/
theorem error_reporting_amended (env : Env) (a : Article) (p : String) (e : String) :
    (env.drawError = some e → ∀ q : Option String,
      generateArticlePDF env a q = RenderOutcome.rejected e) ∧
    (env.drawError = none → env.writeError = some e →
      (env.paginate (forwardPass env a).cur).length = 1 →
      generateArticlePDF env a (some p) = RenderOutcome.uncaught e ∧
      (generateArticlePDF env a (some p)).settles = false) := by
  constructor
  · intro h q
    unfold generateArticlePDF generateArticlePDFRun
    rw [h]
  · intro h1 h2 h3
    obtain ⟨pg, hpg⟩ := List.length_eq_one.mp h3
    unfold generateArticlePDF generateArticlePDFRun
    simp only [h1, hpg, addFooter_single, h2]
    exact ⟨trivial, rfl⟩

/-- Witness for the amended C8 at the concrete fixtures. -/
theorem error_reporting_amended_witness :
    envWErr.drawError = none ∧ envWErr.writeError = some "EACCES" ∧
    (envWErr.paginate (forwardPass envWErr articleW).cur).length = 1 ∧
    (generateArticlePDF envWErr articleW (some "/out.pdf") = RenderOutcome.uncaught "EACCES" ∧
     (generateArticlePDF envWErr articleW (some "/out.pdf")).settles = false) :=
  ⟨rfl, rfl, rfl,
   (error_reporting_amended envWErr articleW "/out.pdf" "EACCES").2 rfl rfl rfl⟩

/-! ## Claim C9 — the input article is never mutated -/

/-- C9: the render threads the caller's article record through every phase
and returns it unchanged on every path — resolution, rejection (draw
failure or the multi-page footer throw) and the unsettled write-failure
path alike (the service contains no assignment to any article field). -/
theorem article_never_mutated (env : Env) (a : Article) (p : Option String) :
    (generateArticlePDFRun env a p).2 = a := by
  simp only [generateArticlePDFRun]
  cases env.drawError with
  | some e => rfl
  | none =>
    cases addFooter env (env.paginate (forwardPass env a).cur) with
    | error e => rfl
    | ok ps2 =>
      cases p with
      | none => rfl
      | some q => cases env.writeError <;> rfl

/-- Witness for the amended C3 at a concrete title and date. -/
theorem filename_amended_witness :
    ∃ t : String,
      generateFilename articleW "2025-06-15" = "article_" ++ t ++ "_" ++ "2025-06-15" ++ ".pdf" ∧
      t.length ≤ 50 ∧
      hasDD t.data = false ∧
      (∀ c ∈ t.data, isAsciiAlnum c = true ∨ c = '_') ∧
      (generateFilename articleW "2025-06-15").length =
        13 + t.length + ("2025-06-15" : String).length ∧
      generateFilename articleW "2025-06-15" ≠ "" :=
  filename_amended articleW "2025-06-15"
